import Mathlib

/-!
Verification of the ADK quickstart script
(`docs/en/getting-started/quickstart/python/adk/quickstart.py`).

The script is straight-line glue code around an external agent framework:
it sets an environment variable, opens a scoped toolbox client, builds an
agent from a loaded toolset, creates a session and a runner, then drives a
fixed list of four queries through the runner, printing the text parts of
the yielded events.

We embed the script as a trace semantics.  The external framework
(`google.adk`, `toolbox_core`) is abstracted as a `World` oracle supplying
the values the external calls return; the script itself becomes a function
from a `World` to a `TraceResult`: the ordered list of externally
observable actions it performs, together with an exception outcome
(`none` for normal termination).  Machine-level details (network, model
responses) live entirely in the oracle, exactly as they are external to
the script.
-/

namespace Quickstart

/-- A tool handle, opaque to the script: it is only passed through. -/
structure Tool where
  id : Nat
deriving DecidableEq, Repr

/-- `google.genai.types.Part`: the `text` field may be absent (`None`). -/
structure Part where
  text : Option String
deriving DecidableEq, Repr

/-- `google.genai.types.Content`.  In the Python class the `parts` field
may itself be `None`, which matters for the unguarded
`event.content.parts` access in the script. -/
structure Content where
  role : String
  parts : Option (List Part)
deriving DecidableEq, Repr

/-- A response event yielded by `runner.run`; its `content` may be `None`. -/
structure Event where
  content : Option Content
deriving DecidableEq, Repr

/-- The Python exceptions the extraction expression can raise:
`AttributeError` from `None.parts`, `TypeError` from iterating `None`. -/
inductive PyError where
  | attributeError
  | typeError
deriving DecidableEq, Repr

/-- The agent configuration bundle passed to the external `Agent`
constructor (quickstart.py lines 28-34). -/
structure Agent where
  model : String
  name : String
  description : String
  instruction : String
  tools : List Tool
deriving DecidableEq, Repr

/-- Externally observable actions of the script, in program order. -/
inductive Action where
  | setEnv (name value : String)
  | acquireClient (url : String)
  | releaseClient
  | loadToolset (toolset : String)
  | constructAgent (agent : Agent)
  | createSession (state : List (String × String)) (appName userId : String)
  | constructRunner (appName : String)
  | runQuery (sessionId userId : String) (newMessage : Content)
  | printLine (s : String)
deriving DecidableEq, Repr

/-- A trace of actions plus the exception outcome: `none` means the
enclosed code finished normally, `some err` that it raised `err`. -/
structure TraceResult where
  actions : List Action
  outcome : Option PyError
deriving DecidableEq, Repr

/-- The oracle for the external framework: what `load_toolset` returns,
the id of the session `create_session` returns, and the event stream each
`runner.run` invocation yields. -/
structure World where
  loadToolset : String → List Tool
  sessionId : String
  run : String → String → Content → List Event

/-! ## Literal configuration values of the script -/

/-- quickstart.py line 16: the toolbox endpoint URL. -/
def serverUrl : String := "http://127.0.0.1:5000"

/-- quickstart.py line 33: the toolset name passed to `load_toolset`. -/
def toolsetName : String := "my-toolset"

/-- quickstart.py lines 18-26: the triple-quoted instruction prompt. -/
def prompt : String :=
  "\n        You\x27re a helpful hotel assistant. You handle hotel searching, booking and\n        cancellations. When the user searches for a hotel, mention it\x27s name, id,\n        location and price tier. Always mention hotel ids while performing any\n        searches. This is very important for any operations. For any bookings or\n        cancellations, please provide the appropriate confirmation. Be sure to\n        update checkin or checkout dates if mentioned by the user.\n        Don\x27t ask for confirmations from the user.\n      "

/-- quickstart.py lines 48-53: the fixed conversation script. -/
def queries : List String :=
  [ "Find hotels in Basel with Basel in its name."
  , "Can you book the Hilton Basel for me?"
  , "Oh wait, this is too expensive. Please cancel it and book the Hyatt Regency instead."
  , "My check in dates would be from April 10, 2024 to April 19, 2024."
  ]

/-- quickstart.py lines 28-34: the `Agent(...)` construction; its `tools`
argument is the list `load_toolset` returned. -/
def rootAgent (w : World) : Agent :=
  { model := "gemini-2.0-flash-001"
  , name := "hotel_agent"
  , description := "A helpful AI assistant."
  , instruction := prompt
  , tools := w.loadToolset toolsetName }

/-- quickstart.py line 56: `types.Content(role='user', parts=[types.Part(text=query)])`. -/
def mkContent (q : String) : Content :=
  { role := "user", parts := some [{ text := some q }] }

/-! ## The response-extraction expression (quickstart.py lines 60-65)

`part.text for event in events for part in event.content.parts if part.text
is not None` — per event: `event.content.parts` raises `AttributeError`
when `content` is `None` and `TypeError` when `parts` is `None`; otherwise
it yields, in order, every `part.text` that is not `None` (an empty string
passes the filter). -/

/-- Extraction of one event's text fragments, with the Python failure
modes of the unguarded `event.content.parts` access. -/
def eventTexts (e : Event) : Except PyError (List String) :=
  match e.content with
  | none => .error .attributeError
  | some c =>
    match c.parts with
    | none => .error .typeError
    | some ps => .ok (ps.filterMap fun p => p.text)

/-- Total variant of `eventTexts` (meaningful on well-formed events). -/
def eventTextsD (e : Event) : List String :=
  match e.content with
  | none => []
  | some c => (c.parts.getD []).filterMap fun p => p.text

/-- An event is well formed when `content` is present and its `parts`
field is an actual list, i.e. the precondition of the unguarded access. -/
def wfEvent (e : Event) : Bool :=
  match e.content with
  | none => false
  | some c => c.parts.isSome

/-- A world is well formed when every event any `run` call yields is. -/
def wfWorld (w : World) : Prop :=
  ∀ sid uid msg, ∀ e ∈ w.run sid uid msg, wfEvent e = true

/-- All text fragments of a well-formed event list, in order. -/
def allTexts : List Event → List String
  | [] => []
  | e :: rest => eventTextsD e ++ allTexts rest

/-- quickstart.py lines 60-68: consuming the event stream of one query
through the generator and the print loop.  Events are processed in order;
the first ill-formed event raises before any of its own parts is printed,
and the texts of the earlier events have already been printed. -/
def printEvents : List Event → TraceResult
  | [] => ⟨[], none⟩
  | e :: rest =>
    match eventTexts e with
    | .error err => ⟨[], some err⟩
    | .ok texts =>
      let r := printEvents rest
      ⟨texts.map Action.printLine ++ r.actions, r.outcome⟩

/-- quickstart.py lines 55-68: the conversation loop.  Each query is
submitted via `runner.run` and its event stream fully consumed before the
next iteration; an exception aborts the loop and propagates. -/
def runLoop (w : World) : List String → TraceResult
  | [] => ⟨[], none⟩
  | q :: qs =>
    let msg := mkContent q
    let r := printEvents (w.run w.sessionId "123" msg)
    match r.outcome with
    | some err => ⟨Action.runQuery w.sessionId "123" msg :: r.actions, some err⟩
    | none =>
      let rest := runLoop w qs
      ⟨Action.runQuery w.sessionId "123" msg :: (r.actions ++ rest.actions), rest.outcome⟩

/-- The sequential block form of the loop trace: for each query, in the
listed order, one `runQuery` submission immediately followed by the prints
of all of that invocation's text fragments, with nothing interleaved.
This is the shape the specification describes; `runLoop` (the embedding of
the code) is proved to coincide with it on well-formed worlds. -/
def sequentialBlocks (w : World) : List String → List Action
  | [] => []
  | q :: qs =>
    Action.runQuery w.sessionId "123" (mkContent q)
      :: (allTexts (w.run w.sessionId "123" (mkContent q))).map Action.printLine
      ++ sequentialBlocks w qs

/-- All texts printed over the whole conversation, per the code's
extraction (`part.text is not None`), in order. -/
def allPrinted (w : World) : List String → List String
  | [] => []
  | q :: qs => allTexts (w.run w.sessionId "123" (mkContent q)) ++ allPrinted w qs

/-! ## The whole script as a trace -/

/-- Python `with` statement semantics for the client (quickstart.py line
16): acquire, run the body, and release on every exit path — the release
action is appended whether the body's outcome is normal or exceptional,
and an exceptional outcome propagates. -/
def withClient (url : String) (body : TraceResult) : TraceResult :=
  ⟨Action.acquireClient url :: (body.actions ++ [Action.releaseClient]), body.outcome⟩

/-- quickstart.py lines 18-68: the body of the `with` block, parameterized
by the query list so that configuration substitution can be stated. -/
def bodyTrace (w : World) (qs : List String) : TraceResult :=
  let loop := runLoop w qs
  ⟨Action.loadToolset toolsetName
     :: Action.constructAgent (rootAgent w)
     :: Action.createSession [] "hotel_agent" "123"
     :: Action.constructRunner "hotel_agent"
     :: loop.actions,
   loop.outcome⟩

/-- The `main()` coroutine, parameterized by the endpoint URL and the
query list (the two literal configuration values). -/
def scriptTrace (url : String) (qs : List String) (w : World) : TraceResult :=
  withClient url (bodyTrace w qs)

/-- `main()` with the script's literal configuration. -/
def mainTrace (w : World) : TraceResult :=
  scriptTrace serverUrl queries w

/-- The whole program: the module-level
`os.environ['GOOGLE_API_KEY'] = 'your-api-key'` (line 13) runs before
`asyncio.run(main())` (line 69). -/
def programTrace (w : World) : TraceResult :=
  let m := mainTrace w
  ⟨Action.setEnv "GOOGLE_API_KEY" "your-api-key" :: m.actions, m.outcome⟩

/-! ## Observations over traces -/

def msgOf : Action → Option Content
  | .runQuery _ _ m => some m
  | _ => none

/-- The messages submitted to `runner.run`, in order. -/
def submittedMessages (tr : List Action) : List Content :=
  tr.filterMap msgOf

def invOf : Action → Option (String × String × Content)
  | .runQuery sid uid m => some (sid, uid, m)
  | _ => none

/-- The full argument triples of the `runner.run` invocations, in order. -/
def runInvocations (tr : List Action) : List (String × String × Content) :=
  tr.filterMap invOf

def textOf : Action → Option String
  | .printLine s => some s
  | _ => none

/-- The lines printed, in order. -/
def printedTexts (tr : List Action) : List String :=
  tr.filterMap textOf

def urlOf : Action → Option String
  | .acquireClient u => some u
  | _ => none

/-- The endpoint URLs passed to the client constructor. -/
def acquiredUrls (tr : List Action) : List String :=
  tr.filterMap urlOf

def agentOf : Action → Option Agent
  | .constructAgent a => some a
  | _ => none

/-- The agent configuration bundles constructed. -/
def agentsConstructed (tr : List Action) : List Agent :=
  tr.filterMap agentOf

def sessionOf : Action → Option (List (String × String) × String × String)
  | .createSession st app uid => some (st, app, uid)
  | _ => none

/-- The (state, app_name, user_id) triples passed to `create_session`. -/
def sessionCreations (tr : List Action) : List (List (String × String) × String × String) :=
  tr.filterMap sessionOf

def runnerOf : Action → Option String
  | .constructRunner app => some app
  | _ => none

/-- The app_name values passed to the `Runner` constructor. -/
def runnerConstructions (tr : List Action) : List String :=
  tr.filterMap runnerOf

def toolsetOf : Action → Option String
  | .loadToolset n => some n
  | _ => none

/-- The toolset names passed to `load_toolset`. -/
def toolsetsLoaded (tr : List Action) : List String :=
  tr.filterMap toolsetOf

def envOf : Action → Option (String × String)
  | .setEnv n v => some (n, v)
  | _ => none

/-- The environment-variable writes performed, in order. -/
def envWrites (tr : List Action) : List (String × String) :=
  tr.filterMap envOf

/-- The per-run configuration values: everything except the endpoint URL,
the submitted messages, and the printed output. -/
def cfgOf : Action → Option Action
  | .runQuery _ _ _ => none
  | .printLine _ => none
  | .acquireClient _ => none
  | a => some a

/-- The non-query, non-print, non-URL actions of a trace: the values the
script constructs and passes that do not carry the endpoint URL or a
query. -/
def configActions (tr : List Action) : List Action :=
  tr.filterMap cfgOf

/-- Applying a list of environment writes to an environment map. -/
def applyWrites : List (String × String) → (String → Option String) → (String → Option String)
  | [], env => env
  | (n, v) :: rest, env => applyWrites rest (fun k => if k = n then some v else env k)

/-- Modelled from the spec: the `toolbox_core.ToolboxSyncClient` class is
external to this repository (only its call site appears in the source);
per the spec, the object constructed from an endpoint URL records that URL
as its `server_url`. -/
structure ToolboxSyncClient where
  server_url : String
deriving DecidableEq, Repr

/-- quickstart.py line 16: the client constructed by the `with` header. -/
def toolbox_client : ToolboxSyncClient :=
  { server_url := serverUrl }

/-! ## Concrete worlds used as witnesses and counterexamples -/

/-- A well-formed event carrying one text part. -/
def ev0 : Event :=
  { content := some { role := "model", parts := some [{ text := some "hello" }] } }

/-- A well-formed world: one tool, one event with text per invocation. -/
def w0 : World :=
  { loadToolset := fun _ => [{ id := 0 }]
  , sessionId := "s1"
  , run := fun _ _ _ => [ev0] }

/-- A well-formed world whose every event carries one part whose text is
the empty string — present (`is not None`) but empty. -/
def wEmptyText : World :=
  { loadToolset := fun _ => []
  , sessionId := "s1"
  , run := fun _ _ _ =>
      [{ content := some { role := "model", parts := some [{ text := some "" }] } }] }

/-- Claim C1 as literally stated: a part's text is printed if and only if
it is a non-empty string, i.e. the printed lines are the present text
fragments with the empty ones removed. -/
def claimC1Stated : Prop :=
  ∀ w, wfWorld w →
    printedTexts (mainTrace w).actions
      = (allPrinted w queries).filter (fun s => s != "")

/-! ## Helper lemmas -/

lemma eventTexts_of_wf (e : Event) (h : wfEvent e = true) :
    eventTexts e = .ok (eventTextsD e) := by
  cases e with
  | mk content =>
    cases content with
    | none => simp [wfEvent] at h
    | some c =>
      cases hp : c.parts with
      | none => simp [wfEvent, hp] at h
      | some ps => simp [eventTexts, eventTextsD, hp]

lemma printEvents_wf (evs : List Event) (h : ∀ e ∈ evs, wfEvent e = true) :
    printEvents evs = ⟨(allTexts evs).map Action.printLine, none⟩ := by
  induction evs with
  | nil => rfl
  | cons e rest ih =>
    have he : wfEvent e = true := h e (List.mem_cons_self _ _)
    have hrest := ih (fun x hx => h x (List.mem_cons_of_mem _ hx))
    simp [printEvents, eventTexts_of_wf e he, hrest, allTexts, List.map_append]

lemma runLoop_wf (w : World) (hw : wfWorld w) (qs : List String) :
    runLoop w qs = ⟨sequentialBlocks w qs, none⟩ := by
  induction qs with
  | nil => rfl
  | cons q qs ih =>
    have hpe := printEvents_wf (w.run w.sessionId "123" (mkContent q))
      (fun e he => hw _ _ _ e he)
    simp [runLoop, hpe, ih, sequentialBlocks]

lemma w0_wf : wfWorld w0 := by
  intro sid uid msg e he
  simp [w0] at he
  subst he
  rfl

lemma filterMap_printLines {α : Type} (f : Action → Option α)
    (hf : ∀ s, f (Action.printLine s) = none) (ts : List String) :
    (ts.map Action.printLine).filterMap f = [] := by
  induction ts with
  | nil => rfl
  | cons t ts ih => simp [List.filterMap_cons, hf, ih]

lemma filterMap_printEvents {α : Type} (f : Action → Option α)
    (hf : ∀ s, f (Action.printLine s) = none) (evs : List Event) :
    (printEvents evs).actions.filterMap f = [] := by
  induction evs with
  | nil => rfl
  | cons e rest ih =>
    cases he : eventTexts e with
    | error err => simp [printEvents, he]
    | ok texts =>
      simp [printEvents, he, List.filterMap_append, filterMap_printLines f hf, ih]

lemma filterMap_runLoop {α : Type} (f : Action → Option α)
    (hfp : ∀ s, f (Action.printLine s) = none)
    (hfq : ∀ sid uid m, f (Action.runQuery sid uid m) = none)
    (w : World) (qs : List String) :
    (runLoop w qs).actions.filterMap f = [] := by
  induction qs with
  | nil => rfl
  | cons q qs ih =>
    cases ho : (printEvents (w.run w.sessionId "123" (mkContent q))).outcome with
    | some err =>
      simp [runLoop, ho, List.filterMap_cons, hfq, filterMap_printEvents f hfp]
    | none =>
      simp [runLoop, ho, List.filterMap_cons, hfq, List.filterMap_append,
        filterMap_printEvents f hfp, ih]

lemma msgOf_blocks (w : World) (qs : List String) :
    (sequentialBlocks w qs).filterMap msgOf = qs.map mkContent := by
  induction qs with
  | nil => rfl
  | cons q qs ih =>
    simp [sequentialBlocks, List.filterMap_cons, msgOf, List.filterMap_append,
      filterMap_printLines msgOf (fun s => rfl), ih]

lemma invOf_blocks (w : World) (qs : List String) :
    (sequentialBlocks w qs).filterMap invOf
      = qs.map (fun q => (w.sessionId, "123", mkContent q)) := by
  induction qs with
  | nil => rfl
  | cons q qs ih =>
    simp [sequentialBlocks, List.filterMap_cons, invOf, List.filterMap_append,
      filterMap_printLines invOf (fun s => rfl), ih]

lemma textOf_printLines (ts : List String) :
    ts.filterMap (textOf ∘ Action.printLine) = ts := by
  induction ts with
  | nil => rfl
  | cons t ts ih => simp [List.filterMap_cons, Function.comp, textOf, ih]

lemma textOf_blocks (w : World) (qs : List String) :
    (sequentialBlocks w qs).filterMap textOf = allPrinted w qs := by
  induction qs with
  | nil => rfl
  | cons q qs ih =>
    simp [sequentialBlocks, allPrinted, List.filterMap_cons, textOf,
      List.filterMap_append, List.filterMap_map, textOf_printLines, ih]

lemma printEvents_error (e : Event) (rest : List Event) (err : PyError)
    (he : eventTexts e = .error err) :
    ∀ p : List Event, (∀ x ∈ p, wfEvent x = true) →
      printEvents (p ++ e :: rest) = ⟨(allTexts p).map Action.printLine, some err⟩ := by
  intro p
  induction p with
  | nil =>
    intro _
    simp [printEvents, he, allTexts]
  | cons x xs ih =>
    intro hp
    have hx : wfEvent x = true := hp x (List.mem_cons_self _ _)
    have ihh := ih (fun y hy => hp y (List.mem_cons_of_mem _ hy))
    simp [printEvents, eventTexts_of_wf x hx, ihh, allTexts, List.map_append]

/-! ## Claim theorems -/

/-- C2: the conversation loop submits exactly four queries to the runner,
one `runner.run` invocation per query, in the literal order in which the
four query strings are listed. -/
theorem C2_four_queries_in_order (w : World) (hw : wfWorld w) :
    queries
      = [ "Find hotels in Basel with Basel in its name."
        , "Can you book the Hilton Basel for me?"
        , "Oh wait, this is too expensive. Please cancel it and book the Hyatt Regency instead."
        , "My check in dates would be from April 10, 2024 to April 19, 2024." ]
    ∧ submittedMessages (mainTrace w).actions = queries.map mkContent
    ∧ (submittedMessages (mainTrace w).actions).length = 4 := by
  have hlp := runLoop_wf w hw queries
  have hsub : submittedMessages (mainTrace w).actions = queries.map mkContent := by
    simp [mainTrace, scriptTrace, withClient, bodyTrace, submittedMessages, hlp,
      List.filterMap_cons, msgOf, List.filterMap_append, msgOf_blocks]
  exact ⟨rfl, hsub, by rw [hsub]; simp [queries]⟩

theorem C2_witness :
    queries
      = [ "Find hotels in Basel with Basel in its name."
        , "Can you book the Hilton Basel for me?"
        , "Oh wait, this is too expensive. Please cancel it and book the Hyatt Regency instead."
        , "My check in dates would be from April 10, 2024 to April 19, 2024." ]
    ∧ submittedMessages (mainTrace w0).actions = queries.map mkContent
    ∧ (submittedMessages (mainTrace w0).actions).length = 4 :=
  C2_four_queries_in_order w0 w0_wf

/-- C3: on a well-formed world the whole trace of `main()` is strictly
sequential: after the setup actions, it is the concatenation, in query
order, of one `runQuery` submission immediately followed by the prints of
all of that invocation's text fragments (`sequentialBlocks`) — so each
query's event stream is fully consumed before the next query is
submitted, and no two runner invocations overlap. -/
theorem C3_fully_sequential (w : World) (hw : wfWorld w) :
    (mainTrace w).actions
      = Action.acquireClient serverUrl
        :: Action.loadToolset toolsetName
        :: Action.constructAgent (rootAgent w)
        :: Action.createSession [] "hotel_agent" "123"
        :: Action.constructRunner "hotel_agent"
        :: sequentialBlocks w queries ++ [Action.releaseClient]
    ∧ (mainTrace w).outcome = none := by
  have hlp := runLoop_wf w hw queries
  constructor
  · simp [mainTrace, scriptTrace, withClient, bodyTrace, hlp]
  · simp [mainTrace, scriptTrace, withClient, bodyTrace, hlp]

theorem C3_witness :
    (mainTrace w0).actions
      = Action.acquireClient serverUrl
        :: Action.loadToolset toolsetName
        :: Action.constructAgent (rootAgent w0)
        :: Action.createSession [] "hotel_agent" "123"
        :: Action.constructRunner "hotel_agent"
        :: sequentialBlocks w0 queries ++ [Action.releaseClient]
    ∧ (mainTrace w0).outcome = none :=
  C3_fully_sequential w0 w0_wf

/-- C1 as stated is false on the code: the generator filters on
`part.text is not None`, not on non-emptiness, so a part whose text is the
empty string (present but empty) is passed to `print`.  On `wEmptyText`
the script prints four empty lines while the claimed description prints
nothing. -/
theorem C1_counterexample : ¬ claimC1Stated := by
  intro h
  have hw : wfWorld wEmptyText := by
    intro sid uid msg e he
    simp [wEmptyText] at he
    subst he
    rfl
  have hne :
      ¬ (printedTexts (mainTrace wEmptyText).actions
          = (allPrinted wEmptyText queries).filter (fun s => s != "")) := by
    decide
  exact hne (h wEmptyText hw)

/-- C1 amended: a part's text is printed if and only if its text field is
present (not `None`) — including when it is the empty string — and every
present text fragment of every yielded event is printed, in order:
the printed lines are exactly `allPrinted w queries`, and per event the
extraction keeps exactly the parts whose `text` is present. -/
theorem C1_printed_iff_present (w : World) (hw : wfWorld w) :
    printedTexts (mainTrace w).actions = allPrinted w queries
    ∧ ∀ (r : String) (ps : List Part),
        eventTextsD { content := some { role := r, parts := some ps } }
          = ps.filterMap Part.text := by
  refine ⟨?_, fun r ps => rfl⟩
  have hlp := runLoop_wf w hw queries
  simp [mainTrace, scriptTrace, withClient, bodyTrace, printedTexts, hlp,
    List.filterMap_cons, textOf, List.filterMap_append, textOf_blocks]

theorem C1_witness :
    printedTexts (mainTrace w0).actions = allPrinted w0 queries
    ∧ ∀ (r : String) (ps : List Part),
        eventTextsD { content := some { role := r, parts := some ps } }
          = ps.filterMap Part.text :=
  C1_printed_iff_present w0 w0_wf

/-- C4: the `with` block acquires the client first and releases it as the
very last action on every exit path — for an arbitrary body outcome,
normal or exceptional, the release action is still appended and the
body's outcome (exception) propagates unchanged; in particular the full
script trace always ends in the release, for every world. -/
theorem C4_scoped_release (url : String) (b : TraceResult) :
    (withClient url b).actions.head? = some (Action.acquireClient url)
    ∧ (withClient url b).actions.getLast? = some Action.releaseClient
    ∧ (withClient url b).outcome = b.outcome
    ∧ ∀ (qs : List String) (w : World),
        (scriptTrace url qs w).actions.getLast? = some Action.releaseClient
        ∧ (scriptTrace url qs w).outcome = (runLoop w qs).outcome := by
  refine ⟨rfl, ?_, rfl, fun qs w => ⟨?_, rfl⟩⟩
  · show (Action.acquireClient url :: (b.actions ++ [Action.releaseClient])).getLast? = _
    rw [← List.cons_append, List.getLast?_concat]
  · show (Action.acquireClient url
        :: ((bodyTrace w qs).actions ++ [Action.releaseClient])).getLast? = _
    rw [← List.cons_append, List.getLast?_concat]

/-- C5: the agent's `tools` list is exactly the list returned by
`load_toolset`, passed through unchanged — and the one agent constructed
by the script is `rootAgent w`. -/
theorem C5_tools_passthrough (w : World) :
    (rootAgent w).tools = w.loadToolset "my-toolset"
    ∧ agentsConstructed (mainTrace w).actions = [rootAgent w] := by
  refine ⟨rfl, ?_⟩
  simp [mainTrace, scriptTrace, withClient, bodyTrace, agentsConstructed,
    List.filterMap_cons, agentOf, List.filterMap_append,
    filterMap_runLoop agentOf (fun s => rfl) (fun sid uid m => rfl)]

/-- C6: the toolbox client is constructed with the literal URL
`"http://127.0.0.1:5000"`: the modelled client object's `server_url`
equals that literal, and the only client acquisition in the trace carries
it. -/
theorem C6_server_url (w : World) :
    toolbox_client.server_url = "http://127.0.0.1:5000"
    ∧ serverUrl = "http://127.0.0.1:5000"
    ∧ acquiredUrls (mainTrace w).actions = ["http://127.0.0.1:5000"] := by
  refine ⟨rfl, rfl, ?_⟩
  simp [mainTrace, scriptTrace, withClient, bodyTrace, acquiredUrls,
    List.filterMap_cons, urlOf, List.filterMap_append,
    filterMap_runLoop urlOf (fun s => rfl) (fun sid uid m => rfl), serverUrl]

/-- C7: the program's only environment write is the in-process assignment
of `GOOGLE_API_KEY` to `'your-api-key'` before the entry point runs;
applying the program's writes to any environment yields that binding for
`GOOGLE_API_KEY` and leaves every other variable unchanged. -/
theorem C7_env_frame (w : World) (env : String → Option String) (k : String)
    (h : k ≠ "GOOGLE_API_KEY") :
    envWrites (programTrace w).actions = [("GOOGLE_API_KEY", "your-api-key")]
    ∧ applyWrites (envWrites (programTrace w).actions) env "GOOGLE_API_KEY"
        = some "your-api-key"
    ∧ applyWrites (envWrites (programTrace w).actions) env k = env k := by
  have hwrites :
      envWrites (programTrace w).actions = [("GOOGLE_API_KEY", "your-api-key")] := by
    simp [programTrace, mainTrace, scriptTrace, withClient, bodyTrace, envWrites,
      List.filterMap_cons, envOf, List.filterMap_append,
      filterMap_runLoop envOf (fun s => rfl) (fun sid uid m => rfl)]
  refine ⟨hwrites, ?_, ?_⟩
  · rw [hwrites]
    simp [applyWrites]
  · rw [hwrites]
    simp [applyWrites, h]

theorem C7_witness :
    envWrites (programTrace w0).actions = [("GOOGLE_API_KEY", "your-api-key")]
    ∧ applyWrites (envWrites (programTrace w0).actions) (fun _ => none) "GOOGLE_API_KEY"
        = some "your-api-key"
    ∧ applyWrites (envWrites (programTrace w0).actions) (fun _ => none) "PATH" = none :=
  C7_env_frame w0 (fun _ => none) "PATH" (by decide)

/-- C8: substituting a different literal endpoint URL or query list
changes only the corresponding configuration value: against the same
external world, the two runs construct identical non-query, non-print,
non-URL actions (`configActions`), each run passes exactly its own URL to
the client constructor and exactly its own queries (wrapped by
`mkContent`) to the runner, and the printed output does not depend on the
URL at all. -/
theorem C8_config_substitution (w : World) (hw : wfWorld w)
    (urlA urlB : String) (qsA qsB : List String) :
    configActions (scriptTrace urlA qsA w).actions
        = configActions (scriptTrace urlB qsB w).actions
    ∧ acquiredUrls (scriptTrace urlA qsA w).actions = [urlA]
    ∧ submittedMessages (scriptTrace urlA qsA w).actions = qsA.map mkContent
    ∧ printedTexts (scriptTrace urlA qsA w).actions
        = printedTexts (scriptTrace urlB qsA w).actions := by
  refine ⟨?_, ?_, ?_, ?_⟩
  · simp [scriptTrace, withClient, bodyTrace, configActions,
      List.filterMap_cons, cfgOf, List.filterMap_append,
      filterMap_runLoop cfgOf (fun s => rfl) (fun sid uid m => rfl)]
  · simp [scriptTrace, withClient, bodyTrace, acquiredUrls,
      List.filterMap_cons, urlOf, List.filterMap_append,
      filterMap_runLoop urlOf (fun s => rfl) (fun sid uid m => rfl)]
  · have hlp := runLoop_wf w hw qsA
    simp [scriptTrace, withClient, bodyTrace, submittedMessages, hlp,
      List.filterMap_cons, msgOf, List.filterMap_append, msgOf_blocks]
  · simp [scriptTrace, withClient, bodyTrace, printedTexts,
      List.filterMap_cons, textOf, List.filterMap_append]

theorem C8_witness :
    configActions (scriptTrace "http://a" ["q1"] w0).actions
        = configActions (scriptTrace "http://b" [] w0).actions
    ∧ acquiredUrls (scriptTrace "http://a" ["q1"] w0).actions = ["http://a"]
    ∧ submittedMessages (scriptTrace "http://a" ["q1"] w0).actions = ["q1"].map mkContent
    ∧ printedTexts (scriptTrace "http://a" ["q1"] w0).actions
        = printedTexts (scriptTrace "http://b" ["q1"] w0).actions :=
  C8_config_substitution w0 w0_wf "http://a" "http://b" ["q1"] []

/-- C9: a single session is created, with empty initial state, app_name
`'hotel_agent'` and user `'123'`; the runner is constructed with the same
app_name; and every one of the four runner invocations uses that one
session's id and the same user id `'123'`. -/
theorem C9_single_session_invariant (w : World) (hw : wfWorld w) :
    sessionCreations (mainTrace w).actions = [([], "hotel_agent", "123")]
    ∧ runnerConstructions (mainTrace w).actions = ["hotel_agent"]
    ∧ runInvocations (mainTrace w).actions
        = queries.map (fun q => (w.sessionId, "123", mkContent q))
    ∧ ∀ inv ∈ runInvocations (mainTrace w).actions,
        inv.1 = w.sessionId ∧ inv.2.1 = "123" := by
  have hlp := runLoop_wf w hw queries
  have hinv : runInvocations (mainTrace w).actions
      = queries.map (fun q => (w.sessionId, "123", mkContent q)) := by
    simp [mainTrace, scriptTrace, withClient, bodyTrace, runInvocations, hlp,
      List.filterMap_cons, invOf, List.filterMap_append, invOf_blocks]
  refine ⟨?_, ?_, hinv, ?_⟩
  · simp [mainTrace, scriptTrace, withClient, bodyTrace, sessionCreations,
      List.filterMap_cons, sessionOf, List.filterMap_append,
      filterMap_runLoop sessionOf (fun s => rfl) (fun sid uid m => rfl)]
  · simp [mainTrace, scriptTrace, withClient, bodyTrace, runnerConstructions,
      List.filterMap_cons, runnerOf, List.filterMap_append,
      filterMap_runLoop runnerOf (fun s => rfl) (fun sid uid m => rfl)]
  · intro inv hmem
    rw [hinv] at hmem
    simp [List.mem_map] at hmem
    obtain ⟨q, _, rfl⟩ := hmem
    exact ⟨rfl, rfl⟩

theorem C9_witness :
    sessionCreations (mainTrace w0).actions = [([], "hotel_agent", "123")]
    ∧ runnerConstructions (mainTrace w0).actions = ["hotel_agent"]
    ∧ runInvocations (mainTrace w0).actions
        = queries.map (fun q => (w0.sessionId, "123", mkContent q))
    ∧ ∀ inv ∈ runInvocations (mainTrace w0).actions,
        inv.1 = w0.sessionId ∧ inv.2.1 = "123" :=
  C9_single_session_invariant w0 w0_wf

/-- C10: the extraction accesses `event.content.parts` with no guard: on
an event whose `content` is `None` it raises `AttributeError` (and
`TypeError` when `parts` is `None`), and consuming a stream that reaches
such an event prints exactly the texts of the well-formed events before
it — none of the offending event's or later events' texts is printed. -/
theorem C10_unguarded_access (p : List Event) (e : Event) (rest : List Event)
    (err : PyError) (hp : ∀ x ∈ p, wfEvent x = true)
    (he : eventTexts e = .error err) :
    printEvents (p ++ e :: rest)
      = ⟨(allTexts p).map Action.printLine, some err⟩
    ∧ eventTexts { content := none } = Except.error PyError.attributeError
    ∧ ∀ r, eventTexts { content := some { role := r, parts := none } }
        = Except.error PyError.typeError :=
  ⟨printEvents_error e rest err he p hp, rfl, fun r => rfl⟩

theorem C10_witness :
    printEvents ([ev0] ++ { content := none } :: [])
      = ⟨(allTexts [ev0]).map Action.printLine, some PyError.attributeError⟩
    ∧ eventTexts { content := none } = Except.error PyError.attributeError
    ∧ ∀ r, eventTexts { content := some { role := r, parts := none } }
        = Except.error PyError.typeError :=
  C10_unguarded_access [ev0] { content := none } [] PyError.attributeError
    (by intro x hx; simp at hx; subst hx; rfl) rfl

end Quickstart
